import Mathlib

/-!
Verification of the data-preparation and filtering pipeline of the Ottawa
Traffic Collision dashboard (src/app.py) against its specification.

The embedding models a pandas DataFrame as a list of records.  Missing values
(NaN / NaT) are modelled as `none`; pandas `isin`, `value_counts`, `mode`,
`sum` and `merge` are translated according to their documented semantics:
`isin` is false on a missing value, `value_counts` and `mode` drop missing
values, `mode` returns the tied most-frequent values sorted ascending,
`sum` skips missing values, and `merge(..., how="left")` keeps every left
row, matching key columns by equality where a missing key matches nothing.
-/

namespace Ottawa

/-- A calendar date; only the year component is used by the filters
(`filtered_df["accident_date"].dt.year`). -/
structure Date where
  year : Int
  month : Nat
  day : Nat
deriving DecidableEq, Repr

/-- One row of the denormalized collision table, restricted to the columns the
pipeline reads.  Every column is optional because any cell can be NaN/NaT
(in particular the label columns produced by the left joins). -/
structure Row where
  accident_date : Option Date
  weekday : Option String
  location_type : Option String
  light : Option String
  initial_impact_type : Option String
  environment_condition : Option String
  road_surface_condition : Option String
  classification_of_accident : Option String
  num_of_injuries : Option Int
deriving DecidableEq, Repr

/-- The year component of the accident date, as `df["accident_date"].dt.year`
(missing date gives missing year). -/
def yearOf (r : Row) : Option Int :=
  r.accident_date.map Date.year

/-- The global sidebar filter state: one list of selected values per
attribute (`selected_years` .. `selected_surfaces` in app.py lines 59-65).
An empty list means the user selected nothing for that attribute. -/
structure Selection where
  years : List Int
  days : List String
  locations : List String
  lights : List String
  impacts : List String
  environments : List String
  surfaces : List String
deriving DecidableEq, Repr

/-- The independent map filter state (`map_year` .. `map_surface`,
app.py lines 119-123). -/
structure MapSelection where
  years : List Int
  locations : List String
  lights : List String
  environments : List String
  surfaces : List String
deriving DecidableEq, Repr

/-- Pandas `Series.isin` semantics on a single cell: a missing value is never
a member of the selected set. -/
def optIsin {α : Type} [DecidableEq α] (v : Option α) (sel : List α) : Bool :=
  match v with
  | none => false
  | some x => decide (x ∈ sel)

/-- One `if selected_xs: filtered_df = filtered_df[col.isin(selected_xs)]`
step of app.py lines 68-81: with an empty selection the table is left
untouched, otherwise rows whose cell is in the selection are kept. -/
def applyFilter {α : Type} [DecidableEq α] (sel : List α) (proj : Row → Option α)
    (t : List Row) : List Row :=
  if sel.isEmpty then t else t.filter (fun r => optIsin (proj r) sel)

/-- The global filter chain of app.py lines 67-81 (`filtered_df`), applied in
source order: year, weekday, location, light, impact, environment, surface. -/
def filtered_df (S : Selection) (t : List Row) : List Row :=
  applyFilter S.surfaces Row.road_surface_condition
    (applyFilter S.environments Row.environment_condition
      (applyFilter S.impacts Row.initial_impact_type
        (applyFilter S.lights Row.light
          (applyFilter S.locations Row.location_type
            (applyFilter S.days Row.weekday
              (applyFilter S.years yearOf t))))))

/-- The map filter chain of app.py lines 125-135 (`map_df`), before the
lat/long dropna. -/
def map_df (M : MapSelection) (t : List Row) : List Row :=
  applyFilter M.surfaces Row.road_surface_condition
    (applyFilter M.environments Row.environment_condition
      (applyFilter M.lights Row.light
        (applyFilter M.locations Row.location_type
          (applyFilter M.years yearOf t))))

/-- Predicate form of the global filter: AND across attributes, with an empty
selected set imposing no restriction, membership (OR) within one set. -/
def rowMatches (S : Selection) (r : Row) : Bool :=
  (S.years.isEmpty || optIsin (yearOf r) S.years) &&
  (S.days.isEmpty || optIsin r.weekday S.days) &&
  (S.locations.isEmpty || optIsin r.location_type S.locations) &&
  (S.lights.isEmpty || optIsin r.light S.lights) &&
  (S.impacts.isEmpty || optIsin r.initial_impact_type S.impacts) &&
  (S.environments.isEmpty || optIsin r.environment_condition S.environments) &&
  (S.surfaces.isEmpty || optIsin r.road_surface_condition S.surfaces)

/-- Predicate form of the map filter. -/
def mapRowMatches (M : MapSelection) (r : Row) : Bool :=
  (M.years.isEmpty || optIsin (yearOf r) M.years) &&
  (M.locations.isEmpty || optIsin r.location_type M.locations) &&
  (M.lights.isEmpty || optIsin r.light M.lights) &&
  (M.environments.isEmpty || optIsin r.environment_condition M.environments) &&
  (M.surfaces.isEmpty || optIsin r.road_surface_condition M.surfaces)

/-- The selection in which every attribute maps to the empty set. -/
def emptySelection : Selection :=
  ⟨[], [], [], [], [], [], []⟩

theorem applyFilter_eq {α : Type} [DecidableEq α] (sel : List α) (proj : Row → Option α)
    (t : List Row) :
    applyFilter sel proj t = t.filter (fun r => sel.isEmpty || optIsin (proj r) sel) := by
  unfold applyFilter
  cases h : sel.isEmpty with
  | true => simp [h]
  | false => simp [h]

theorem filtered_df_eq_filter (S : Selection) (t : List Row) :
    filtered_df S t = t.filter (rowMatches S) := by
  unfold filtered_df
  simp only [applyFilter_eq, List.filter_filter]
  apply List.filter_congr
  intro r _
  unfold rowMatches
  cases S.years.isEmpty || optIsin (yearOf r) S.years <;>
    cases S.days.isEmpty || optIsin r.weekday S.days <;>
    cases S.locations.isEmpty || optIsin r.location_type S.locations <;>
    cases S.lights.isEmpty || optIsin r.light S.lights <;>
    cases S.impacts.isEmpty || optIsin r.initial_impact_type S.impacts <;>
    cases S.environments.isEmpty || optIsin r.environment_condition S.environments <;>
    cases S.surfaces.isEmpty || optIsin r.road_surface_condition S.surfaces <;>
    rfl

theorem map_df_eq_filter (M : MapSelection) (t : List Row) :
    map_df M t = t.filter (mapRowMatches M) := by
  unfold map_df
  simp only [applyFilter_eq, List.filter_filter]
  apply List.filter_congr
  intro r _
  unfold mapRowMatches
  cases M.years.isEmpty || optIsin (yearOf r) M.years <;>
    cases M.locations.isEmpty || optIsin r.location_type M.locations <;>
    cases M.lights.isEmpty || optIsin r.light M.lights <;>
    cases M.environments.isEmpty || optIsin r.environment_condition M.environments <;>
    cases M.surfaces.isEmpty || optIsin r.road_surface_condition M.surfaces <;>
    rfl

/-- Lexicographic comparison of character lists by code point, the order
Python and pandas use to sort strings.  (Mathlib has an order on `String`,
but its decision procedure does not reduce in the kernel, so the comparison
is spelled out here.) -/
def lexLe : List Char → List Char → Bool
  | [], _ => true
  | _ :: _, [] => false
  | a :: as, b :: bs =>
    if a.toNat < b.toNat then true
    else if b.toNat < a.toNat then false
    else lexLe as bs

/-- Lexicographic comparison of strings by code point. -/
def strLe (a b : String) : Bool :=
  lexLe a.data b.data

theorem lexLe_refl : ∀ l : List Char, lexLe l l = true
  | [] => rfl
  | a :: as => by
    simp only [lexLe, Nat.lt_irrefl, if_false]
    exact lexLe_refl as

theorem lexLe_total : ∀ a b : List Char, lexLe a b = true ∨ lexLe b a = true
  | [], _ => Or.inl rfl
  | _ :: _, [] => Or.inr rfl
  | a :: as, b :: bs => by
    simp only [lexLe]
    rcases Nat.lt_trichotomy a.toNat b.toNat with h | h | h
    · left
      rw [if_pos h]
    · rw [h]
      simp only [Nat.lt_irrefl, if_false]
      exact lexLe_total as bs
    · right
      rw [if_pos h]

theorem lexLe_trans : ∀ a b c : List Char,
    lexLe a b = true → lexLe b c = true → lexLe a c = true
  | [], _, _, _, _ => rfl
  | _ :: _, [], _, h1, _ => absurd h1 (by simp [lexLe])
  | _ :: _, _ :: _, [], _, h2 => absurd h2 (by simp [lexLe])
  | a :: as, b :: bs, c :: cs, h1, h2 => by
    simp only [lexLe] at h1 h2 ⊢
    rcases Nat.lt_trichotomy a.toNat b.toNat with hab | hab | hab
    · rcases Nat.lt_trichotomy b.toNat c.toNat with hbc | hbc | hbc
      · rw [if_pos (Nat.lt_trans hab hbc)]
      · rw [if_pos (hbc ▸ hab)]
      · rw [if_neg (Nat.lt_asymm hbc), if_pos hbc] at h2
        exact absurd h2 (by simp)
    · rcases Nat.lt_trichotomy b.toNat c.toNat with hbc | hbc | hbc
      · rw [if_pos (hab ▸ hbc)]
      · rw [hab, hbc]
        simp only [Nat.lt_irrefl, if_false]
        rw [hab] at h1
        rw [hbc] at h2
        simp only [Nat.lt_irrefl, if_false] at h1 h2
        exact lexLe_trans as bs cs h1 h2
      · rw [if_neg (Nat.lt_asymm hbc), if_pos hbc] at h2
        exact absurd h2 (by simp)
    · rw [if_neg (Nat.lt_asymm hab), if_pos hab] at h1
      exact absurd h1 (by simp)

instance : IsTrans String (fun a b => strLe a b = true) :=
  ⟨fun a b c => lexLe_trans a.data b.data c.data⟩

instance : IsTotal String (fun a b => strLe a b = true) :=
  ⟨fun a b => lexLe_total a.data b.data⟩

/-- Maximum of a list of naturals, 0 on the empty list. -/
def listMaxNat : List Nat → Nat
  | [] => 0
  | x :: xs => max x (listMaxNat xs)

theorem le_listMaxNat : ∀ {l : List Nat} {x : Nat}, x ∈ l → x ≤ listMaxNat l := by
  intro l
  induction l with
  | nil => intro x hx; exact absurd hx (List.not_mem_nil x)
  | cons a as ih =>
    intro x hx
    rcases List.mem_cons.mp hx with h | h
    · subst h
      exact Nat.le_max_left _ _
    · exact Nat.le_trans (ih h) (Nat.le_max_right _ _)

theorem listMaxNat_mem : ∀ {l : List Nat}, l ≠ [] → listMaxNat l ∈ l := by
  intro l
  induction l with
  | nil => intro h; exact absurd rfl h
  | cons a as ih =>
    intro _
    show max a (listMaxNat as) ∈ a :: as
    cases as with
    | nil => simp [listMaxNat]
    | cons b bs =>
      rcases Nat.le_total a (listMaxNat (b :: bs)) with h | h
      · rw [Nat.max_eq_right h]
        exact List.mem_cons_of_mem a (ih (by simp))
      · rw [Nat.max_eq_left h]
        exact List.mem_cons_self a _

/-- The count of the most frequent value of a list (0 when the list is
empty): the number of occurrences a value must reach to be a mode. -/
def maxCount (xs : List String) : Nat :=
  listMaxNat (xs.dedup.map (fun v => xs.count v))

/-- Pandas `Series.mode`: the distinct non-missing values attaining the
maximal occurrence count, sorted ascending (pandas documents that the result
is sorted). -/
def seriesMode (xs : List String) : List String :=
  List.insertionSort (fun a b => strLe a b = true)
    (xs.dedup.filter (fun v => xs.count v == maxCount xs))

/-- The three `mode()[0] if not filtered_df.empty else "N/A"` metrics of
app.py lines 156-165, generic in the column.  Indexing `[0]` into the empty
mode series raises a `KeyError`, which the surrounding try/except block of
the insight-summary section catches; the error value records that raised
exception. -/
def modeMetric (proj : Row → Option String) (t : List Row) : Except String String :=
  if t.isEmpty then Except.ok "N/A"
  else
    match (seriesMode (t.filterMap proj)).head? with
    | some v => Except.ok v
    | none => Except.error "KeyError: 0"

/-- Most frequent weekday (app.py line 158). -/
def top_day (t : List Row) : Except String String :=
  modeMetric Row.weekday t

/-- Most common light condition (app.py line 161). -/
def top_light (t : List Row) : Except String String :=
  modeMetric Row.light t

/-- Top road surface (app.py line 164). -/
def top_surface (t : List Row) : Except String String :=
  modeMetric Row.road_surface_condition t

/-- The canonical weekday ordering used by the reindex on app.py
lines 110-112. -/
def canonicalWeekdays : List String :=
  ["Monday", "Tuesday", "Wednesday", "Thursday", "Friday", "Saturday", "Sunday"]

/-- Pandas `Series.value_counts`: occurrence counts of the distinct
non-missing values.  (Pandas presents them in descending-count order; the
order is irrelevant here because `reindex` looks entries up by their unique
label, so the embedding keeps first-occurrence order.) -/
def value_counts (xs : List String) : List (String × Nat) :=
  xs.dedup.map (fun v => (v, xs.count v))

/-- Pandas `reindex`: one entry per requested label, in the requested order;
a label absent from the counts gets a missing value (NaN), not zero. -/
def reindex (vc : List (String × Nat)) (idx : List String) : List (String × Option Nat) :=
  idx.map (fun d => (d, vc.lookup d))

/-- The weekday bar-chart data of app.py lines 110-113:
`value_counts()` over the weekday column reindexed by the canonical
Monday..Sunday ordering. -/
def weekday_counts (t : List Row) : List (String × Option Nat) :=
  reindex (value_counts (t.filterMap Row.weekday)) canonicalWeekdays

/-- The filtered average injury rate of app.py line 173: sum of the
injuries column (pandas `sum` skips missing values) divided by the row
count, guarded to 0 on an empty table. -/
def filtered_avg_injury_rate (t : List Row) : ℚ :=
  if 0 < t.length then
    ((t.filterMap Row.num_of_injuries).sum : ℚ) / (t.length : ℚ)
  else 0

/-- One row of the fact table as read from the CSV: the eight foreign-key
columns the loader joins on, followed by the eight label columns the joins
add (all `none` before the corresponding join runs). -/
structure FactRow where
  location_type_id : Option Int
  Classificationid : Option Int
  impactid : Option Int
  road_conditionid : Option Int
  environmentid : Option Int
  lightid : Option Int
  trafficid : Option Int
  injuryid : Option Int
  location_type : Option String
  classification_of_accident : Option String
  initial_impact_type : Option String
  road_surface_condition : Option String
  environment_condition : Option String
  light : Option String
  traffic_control : Option String
  max_injury : Option String
deriving DecidableEq, Repr

/-- The eight lookup tables of Dimtables.xlsx, each mapping an integer
identifier to a label. -/
structure DimTables where
  location_type : List (Int × String)
  classification_of_accident : List (Int × String)
  initial_impact_type : List (Int × String)
  road_surface_condition : List (Int × String)
  environment_condition : List (Int × String)
  light : List (Int × String)
  traffic_control : List (Int × String)
  max_injury : List (Int × String)
deriving DecidableEq, Repr

/-- Pandas `merge(lookup, on=key, how="left")` acting on one left row: a
row whose key matches no lookup row (in particular a missing key, since NaN
matches nothing) gets a missing label, and a row whose key matches several
lookup rows is duplicated once per match. -/
def joinRow (key : FactRow → Option Int) (put : FactRow → Option String → FactRow)
    (lk : List (Int × String)) (r : FactRow) : List FactRow :=
  match lk.filter (fun p => key r == some p.1) with
  | [] => [put r none]
  | q :: qs => (q :: qs).map (fun p => put r (some p.2))

/-- Pandas `merge(lookup, on=key, how="left")` over the whole fact table. -/
def leftJoin (key : FactRow → Option Int) (put : FactRow → Option String → FactRow)
    (lk : List (Int × String)) (fact : List FactRow) : List FactRow :=
  fact.flatMap (joinRow key put lk)

/-- The eight successive left joins of app.py lines 23-30, in source
order. -/
def load_merge (fact : List FactRow) (d : DimTables) : List FactRow :=
  leftJoin FactRow.injuryid (fun r v => { r with max_injury := v }) d.max_injury
    (leftJoin FactRow.trafficid (fun r v => { r with traffic_control := v }) d.traffic_control
      (leftJoin FactRow.lightid (fun r v => { r with light := v }) d.light
        (leftJoin FactRow.environmentid (fun r v => { r with environment_condition := v }) d.environment_condition
          (leftJoin FactRow.road_conditionid (fun r v => { r with road_surface_condition := v }) d.road_surface_condition
            (leftJoin FactRow.impactid (fun r v => { r with initial_impact_type := v }) d.initial_impact_type
              (leftJoin FactRow.Classificationid (fun r v => { r with classification_of_accident := v }) d.classification_of_accident
                (leftJoin FactRow.location_type_id (fun r v => { r with location_type := v }) d.location_type fact)))))))

theorem filter_key_length_le_one (lk : List (Int × String))
    (hnd : (lk.map Prod.fst).Nodup) (k : Option Int) :
    (lk.filter (fun p => k == some p.1)).length ≤ 1 := by
  induction lk with
  | nil => simp
  | cons a l ih =>
    rw [List.map_cons, List.nodup_cons] at hnd
    cases hk : (k == some a.1) with
    | false =>
      have hstep : (a :: l).filter (fun p => k == some p.1) =
          l.filter (fun p => k == some p.1) := by
        simp only [List.filter_cons, hk]
        rw [if_neg]
        simp
      rw [hstep]
      exact ih hnd.2
    | true =>
      have hstep : (a :: l).filter (fun p => k == some p.1) =
          a :: l.filter (fun p => k == some p.1) := by
        simp only [List.filter_cons, hk]
        simp
      rw [hstep]
      have hnil : l.filter (fun p => k == some p.1) = [] := by
        cases hf : l.filter (fun p => k == some p.1) with
        | nil => rfl
        | cons q qs =>
          exfalso
          have hq : q ∈ l.filter (fun p => k == some p.1) := by
            rw [hf]
            exact List.mem_cons_self q qs
          have hqk : k = some q.1 := eq_of_beq (List.mem_filter.mp hq).2
          have hak : k = some a.1 := eq_of_beq hk
          have hfst : a.1 = q.1 := by
            rw [hak] at hqk
            exact Option.some.inj hqk
          exact hnd.1 (List.mem_map.mpr ⟨q, (List.mem_filter.mp hq).1, hfst.symm⟩)
      rw [hnil]
      simp

theorem joinRow_length (key : FactRow → Option Int) (put : FactRow → Option String → FactRow)
    (lk : List (Int × String)) (r : FactRow)
    (h : (lk.filter (fun p => key r == some p.1)).length ≤ 1) :
    (joinRow key put lk r).length = 1 := by
  unfold joinRow
  cases hf : lk.filter (fun p => key r == some p.1) with
  | nil => rfl
  | cons q qs =>
    rw [hf] at h
    simp only [List.length_map, List.length_cons]
    simp only [List.length_cons] at h
    omega

theorem leftJoin_length (key : FactRow → Option Int) (put : FactRow → Option String → FactRow)
    (lk : List (Int × String)) (fact : List FactRow)
    (h : ∀ r ∈ fact, (lk.filter (fun p => key r == some p.1)).length ≤ 1) :
    (leftJoin key put lk fact).length = fact.length := by
  induction fact with
  | nil => rfl
  | cons a l ih =>
    unfold leftJoin
    rw [List.flatMap_cons, List.length_append]
    have htail : (leftJoin key put lk l).length = l.length :=
      ih (fun r hr => h r (List.mem_cons_of_mem a hr))
    unfold leftJoin at htail
    rw [htail, joinRow_length key put lk a (h a (List.mem_cons_self a l)),
      List.length_cons]
    omega

/-- C2: when each lookup table has unique keys, the eight successive left
joins preserve the row count of the fact table: no fact row is dropped
(left join) or duplicated (at most one match per key). -/
theorem load_merge_preserves_count (fact : List FactRow) (d : DimTables)
    (h1 : (d.location_type.map Prod.fst).Nodup)
    (h2 : (d.classification_of_accident.map Prod.fst).Nodup)
    (h3 : (d.initial_impact_type.map Prod.fst).Nodup)
    (h4 : (d.road_surface_condition.map Prod.fst).Nodup)
    (h5 : (d.environment_condition.map Prod.fst).Nodup)
    (h6 : (d.light.map Prod.fst).Nodup)
    (h7 : (d.traffic_control.map Prod.fst).Nodup)
    (h8 : (d.max_injury.map Prod.fst).Nodup) :
    (load_merge fact d).length = fact.length := by
  unfold load_merge
  rw [leftJoin_length _ _ _ _ (fun r _ => filter_key_length_le_one d.max_injury h8 r.injuryid),
    leftJoin_length _ _ _ _ (fun r _ => filter_key_length_le_one d.traffic_control h7 r.trafficid),
    leftJoin_length _ _ _ _ (fun r _ => filter_key_length_le_one d.light h6 r.lightid),
    leftJoin_length _ _ _ _ (fun r _ => filter_key_length_le_one d.environment_condition h5 r.environmentid),
    leftJoin_length _ _ _ _ (fun r _ => filter_key_length_le_one d.road_surface_condition h4 r.road_conditionid),
    leftJoin_length _ _ _ _ (fun r _ => filter_key_length_le_one d.initial_impact_type h3 r.impactid),
    leftJoin_length _ _ _ _ (fun r _ => filter_key_length_le_one d.classification_of_accident h2 r.Classificationid),
    leftJoin_length _ _ _ _ (fun r _ => filter_key_length_le_one d.location_type h1 r.location_type_id)]

/-- A fact row whose eight foreign keys all reference identifier 1, with no
labels resolved yet. -/
def exFact : FactRow :=
  ⟨some 1, some 1, some 1, some 1, some 1, some 1, some 1, some 1,
   none, none, none, none, none, none, none, none⟩

/-- Concrete one-entry lookup tables with unique keys. -/
def exDims : DimTables :=
  ⟨[(1, "Intersection")], [(1, "P.D. only")], [(1, "Rear end")], [(1, "Dry")],
   [(1, "Clear")], [(1, "Daylight")], [(1, "Traffic signal")], [(1, "None")]⟩

/-- Witness for the row-count theorem on a concrete two-row fact table. -/
theorem load_merge_preserves_count_witness :
    (load_merge [exFact, exFact] exDims).length =
      ([exFact, exFact] : List FactRow).length :=
  load_merge_preserves_count [exFact, exFact] exDims (by decide) (by decide)
    (by decide) (by decide) (by decide) (by decide) (by decide) (by decide)

/-- The workbook as read by `pd.read_excel(..., sheet_name=None)`: sheet
name to lookup-table mapping. -/
abbrev Sheets := List (String × List (Int × String))

/-- Reading `dim_data[name]`: a missing sheet raises a KeyError. -/
def getSheet (sheets : Sheets) (name : String) : Except String (List (Int × String)) :=
  match sheets.lookup name with
  | some t => Except.ok t
  | none => Except.error (String.append "KeyError: " name)

/-- The body of the `try` block of app.py lines 18-33: the raw input models
the two file reads, which may themselves fail (missing file, parse error);
then the eight sheets are looked up and the joins run.  Any failure aborts
the whole computation with its cause. -/
def load_attempt (raw : Except String (List FactRow × Sheets)) :
    Except String (List FactRow × Sheets) := do
  let (fact, sheets) ← raw
  let t1 ← getSheet sheets "Dimlocation_type"
  let t2 ← getSheet sheets "Dimclassification_of_accident"
  let t3 ← getSheet sheets "Diminitial_impact_type"
  let t4 ← getSheet sheets "Dimroad_surface_condition"
  let t5 ← getSheet sheets "Dimenvironment_condition"
  let t6 ← getSheet sheets "Dimlight"
  let t7 ← getSheet sheets "Dimtraffic_control"
  let t8 ← getSheet sheets "Dimmax_injury"
  pure (load_merge fact ⟨t1, t2, t3, t4, t5, t6, t7, t8⟩, sheets)

/-- app.py lines 17-38 (`load_data`): on success the denormalized table and
the sheets are returned with no error logged; on any failure the error
cause is logged (second component) and the empty sentinel
`(pd.DataFrame(), {})` is returned, never a partial table. -/
def load_data (raw : Except String (List FactRow × Sheets)) :
    (List FactRow × Sheets) × Option String :=
  match load_attempt raw with
  | Except.ok v => (v, none)
  | Except.error e => (([], []), some e)

/-- app.py lines 41-44: the session renders visualizations only when the
loaded table is non-empty (`if df.empty: st.stop()`). -/
def sessionVisualizes (raw : Except String (List FactRow × Sheets)) : Bool :=
  !(load_data raw).1.1.isEmpty

/-- C3: a failing load signals the underlying cause (to the log) and yields
the empty sentinel instead of a partial table, and a failed or empty load
stops the session before any visualization. -/
theorem load_error_handling (raw : Except String (List FactRow × Sheets)) :
    (∀ e, load_attempt raw = Except.error e →
      load_data raw = (([], []), some e)) ∧
    ((load_data raw).1.1 = [] → sessionVisualizes raw = false) := by
  constructor
  · intro e he
    unfold load_data
    rw [he]
  · intro h
    unfold sessionVisualizes
    rw [h]
    rfl

/-- Witness for the error-handling theorem: a load whose workbook has no
sheets fails with a KeyError for the first dimension sheet, returns the
empty sentinel, and the session shows nothing. -/
theorem load_error_handling_witness :
    load_data (Except.ok ([exFact], ([] : Sheets))) =
      (([], []), some "KeyError: Dimlocation_type") ∧
    sessionVisualizes (Except.ok ([exFact], ([] : Sheets))) = false :=
  ⟨(load_error_handling (Except.ok ([exFact], ([] : Sheets)))).1
      "KeyError: Dimlocation_type" rfl,
   (load_error_handling (Except.ok ([exFact], ([] : Sheets)))).2 rfl⟩

/-- A single-value extension of one attribute of a `Selection`
(used to state filter monotonicity). -/
inductive SelUpdate where
  | year (y : Int)
  | day (d : String)
  | location (s : String)
  | lightCond (s : String)
  | impact (s : String)
  | environment (s : String)
  | surface (s : String)
deriving DecidableEq, Repr

/-- Add one value to the corresponding attribute of a selection. -/
def addValue (u : SelUpdate) (S : Selection) : Selection :=
  match u with
  | .year y => { S with years := y :: S.years }
  | .day d => { S with days := d :: S.days }
  | .location s => { S with locations := s :: S.locations }
  | .lightCond s => { S with lights := s :: S.lights }
  | .impact s => { S with impacts := s :: S.impacts }
  | .environment s => { S with environments := s :: S.environments }
  | .surface s => { S with surfaces := s :: S.surfaces }

/-- True when the attribute the update touches already has a non-empty
selected set. -/
def touched (u : SelUpdate) (S : Selection) : Bool :=
  match u with
  | .year _ => !S.years.isEmpty
  | .day _ => !S.days.isEmpty
  | .location _ => !S.locations.isEmpty
  | .lightCond _ => !S.lights.isEmpty
  | .impact _ => !S.impacts.isEmpty
  | .environment _ => !S.environments.isEmpty
  | .surface _ => !S.surfaces.isEmpty

theorem optIsin_cons {α : Type} [DecidableEq α] {v : Option α} {sel : List α} (x : α)
    (h : optIsin v sel = true) : optIsin v (x :: sel) = true := by
  cases v with
  | none => simp [optIsin] at h
  | some a =>
    simp only [optIsin, decide_eq_true_eq] at h ⊢
    exact List.mem_cons_of_mem x h

end Ottawa

namespace Ottawa

/-- C1: the Filter Engine (both the global `filtered_df` chain and the map
`map_df` chain) returns exactly the rows of the input table satisfying, for
every attribute with a non-empty selected set, membership of the row value
(for year, the year of the date) in that set: AND across attributes, OR
(membership) within one attribute. -/
theorem filter_engine_correct (S : Selection) (M : MapSelection) (t : List Row) :
    filtered_df S t = t.filter (rowMatches S) ∧
    map_df M t = t.filter (mapRowMatches M) ∧
    (∀ r : Row, r ∈ filtered_df S t ↔ r ∈ t ∧ rowMatches S r = true) ∧
    (∀ r : Row, r ∈ map_df M t ↔ r ∈ t ∧ mapRowMatches M r = true) := by
  refine ⟨filtered_df_eq_filter S t, map_df_eq_filter M t, ?_, ?_⟩
  · intro r
    rw [filtered_df_eq_filter]
    exact List.mem_filter
  · intro r
    rw [map_df_eq_filter]
    exact List.mem_filter

/-- C4: filtering with the selection in which every attribute maps to the
empty set returns the input table unchanged.  (The engine is a pure function
of its arguments in this embedding, so the input table is never mutated.) -/
theorem filtered_df_empty_selection (t : List Row) :
    filtered_df emptySelection t = t := by
  simp [filtered_df, emptySelection, applyFilter]

/-- C5: the Filter Engine is idempotent: filtering twice with the same
selection equals filtering once. -/
theorem filtered_df_idempotent (S : Selection) (t : List Row) :
    filtered_df S (filtered_df S t) = filtered_df S t := by
  simp only [filtered_df_eq_filter, List.filter_filter]
  apply List.filter_congr
  intro r _
  cases rowMatches S r <;> rfl

/-- C6 counterexample: monotonicity fails when the added value lands in an
attribute whose selected set was empty: the empty set means no restriction,
so adding a first value strictly restricts.  A one-row table with weekday
Tuesday passes the empty selection but not the selection extended with
day Monday. -/
theorem filter_monotonicity_cex :
    (⟨none, some "Tuesday", none, none, none, none, none, none, none⟩ : Row) ∈
      filtered_df emptySelection
        [⟨none, some "Tuesday", none, none, none, none, none, none, none⟩] ∧
    (⟨none, some "Tuesday", none, none, none, none, none, none, none⟩ : Row) ∉
      filtered_df (addValue (.day "Monday") emptySelection)
        [⟨none, some "Tuesday", none, none, none, none, none, none, none⟩] := by
  constructor
  · decide
  · decide

/-- C6 amended: the Filter Engine is monotone in the selected-value sets
provided the attribute receiving the new value already had a non-empty
selected set: every row kept by the old selection is kept by the extended
one.  (Adding a value to an empty set can shrink the result, since an empty
set means no restriction.) -/
theorem filtered_df_monotone (S : Selection) (u : SelUpdate) (t : List Row) (r : Row)
    (hne : touched u S = true) (hmem : r ∈ filtered_df S t) :
    r ∈ filtered_df (addValue u S) t := by
  rw [filtered_df_eq_filter, List.mem_filter] at hmem ⊢
  refine ⟨hmem.1, ?_⟩
  have h := hmem.2
  simp only [rowMatches, Bool.and_eq_true] at h ⊢
  obtain ⟨⟨⟨⟨⟨⟨h1, h2⟩, h3⟩, h4⟩, h5⟩, h6⟩, h7⟩ := h
  cases u with
  | year y =>
    simp only [touched, Bool.not_eq_true'] at hne
    refine ⟨⟨⟨⟨⟨⟨?_, h2⟩, h3⟩, h4⟩, h5⟩, h6⟩, h7⟩
    simp only [addValue, Bool.or_eq_true] at h1 ⊢
    rcases h1 with h1 | h1
    · simp [h1] at hne
    · exact Or.inr (optIsin_cons y h1)
  | day d =>
    simp only [touched, Bool.not_eq_true'] at hne
    refine ⟨⟨⟨⟨⟨⟨h1, ?_⟩, h3⟩, h4⟩, h5⟩, h6⟩, h7⟩
    simp only [addValue, Bool.or_eq_true] at h2 ⊢
    rcases h2 with h2 | h2
    · simp [h2] at hne
    · exact Or.inr (optIsin_cons d h2)
  | location s =>
    simp only [touched, Bool.not_eq_true'] at hne
    refine ⟨⟨⟨⟨⟨⟨h1, h2⟩, ?_⟩, h4⟩, h5⟩, h6⟩, h7⟩
    simp only [addValue, Bool.or_eq_true] at h3 ⊢
    rcases h3 with h3 | h3
    · simp [h3] at hne
    · exact Or.inr (optIsin_cons s h3)
  | lightCond s =>
    simp only [touched, Bool.not_eq_true'] at hne
    refine ⟨⟨⟨⟨⟨⟨h1, h2⟩, h3⟩, ?_⟩, h5⟩, h6⟩, h7⟩
    simp only [addValue, Bool.or_eq_true] at h4 ⊢
    rcases h4 with h4 | h4
    · simp [h4] at hne
    · exact Or.inr (optIsin_cons s h4)
  | impact s =>
    simp only [touched, Bool.not_eq_true'] at hne
    refine ⟨⟨⟨⟨⟨⟨h1, h2⟩, h3⟩, h4⟩, ?_⟩, h6⟩, h7⟩
    simp only [addValue, Bool.or_eq_true] at h5 ⊢
    rcases h5 with h5 | h5
    · simp [h5] at hne
    · exact Or.inr (optIsin_cons s h5)
  | environment s =>
    simp only [touched, Bool.not_eq_true'] at hne
    refine ⟨⟨⟨⟨⟨⟨h1, h2⟩, h3⟩, h4⟩, h5⟩, ?_⟩, h7⟩
    simp only [addValue, Bool.or_eq_true] at h6 ⊢
    rcases h6 with h6 | h6
    · simp [h6] at hne
    · exact Or.inr (optIsin_cons s h6)
  | surface s =>
    simp only [touched, Bool.not_eq_true'] at hne
    refine ⟨⟨⟨⟨⟨⟨h1, h2⟩, h3⟩, h4⟩, h5⟩, h6⟩, ?_⟩
    simp only [addValue, Bool.or_eq_true] at h7 ⊢
    rcases h7 with h7 | h7
    · simp [h7] at hne
    · exact Or.inr (optIsin_cons s h7)

theorem seriesMode_mem {xs : List String} {v : String} (h : v ∈ seriesMode xs) :
    v ∈ xs.dedup.filter (fun u => xs.count u == maxCount xs) :=
  (List.perm_insertionSort _ _).mem_iff.mp h

theorem head?_mem {α : Type} {l : List α} {v : α} (h : l.head? = some v) : v ∈ l := by
  cases l with
  | nil => exact absurd h (by simp)
  | cons a as =>
    simp only [List.head?, Option.some.injEq] at h
    exact h ▸ List.mem_cons_self a as

theorem count_le_maxCount {xs : List String} {w : String} (hw : w ∈ xs) :
    xs.count w ≤ maxCount xs :=
  le_listMaxNat (List.mem_map.mpr ⟨w, List.mem_dedup.mpr hw, rfl⟩)

theorem maxCount_attained {xs : List String} (h : xs ≠ []) :
    ∃ v ∈ xs.dedup, xs.count v = maxCount xs := by
  have hd : xs.dedup ≠ [] := by
    intro hc
    exact h ((List.dedup_eq_nil xs).mp hc)
  have hmap : xs.dedup.map (fun v => xs.count v) ≠ [] := by
    simpa using hd
  have := listMaxNat_mem hmap
  rcases List.mem_map.mp this with ⟨v, hv, hcv⟩
  exact ⟨v, hv, hcv⟩

theorem seriesMode_ne_nil {xs : List String} (h : xs ≠ []) : seriesMode xs ≠ [] := by
  rcases maxCount_attained h with ⟨v, hv, hcv⟩
  have hvf : v ∈ xs.dedup.filter (fun u => xs.count u == maxCount xs) :=
    List.mem_filter.mpr ⟨hv, by simp [hcv]⟩
  have : v ∈ seriesMode xs := (List.perm_insertionSort _ _).mem_iff.mpr hvf
  exact List.ne_nil_of_mem this

theorem seriesMode_head_le {xs : List String} {v : String}
    (h : (seriesMode xs).head? = some v) : ∀ w ∈ seriesMode xs, strLe v w = true := by
  have hs : List.Sorted (fun a b => strLe a b = true) (seriesMode xs) :=
    List.sorted_insertionSort _ _
  intro w hw
  cases hm : seriesMode xs with
  | nil =>
    rw [hm] at hw
    exact absurd hw (List.not_mem_nil w)
  | cons a l =>
    rw [hm] at h hw hs
    simp only [List.head?, Option.some.injEq] at h
    subst h
    rcases List.mem_cons.mp hw with h | h
    · subst h
      exact lexLe_refl _
    · exact List.rel_of_sorted_cons hs w h

theorem isEmpty_false_of_ne_nil {α : Type} {t : List α} (h : t ≠ []) :
    t.isEmpty = false := by
  cases t with
  | nil => exact absurd rfl h
  | cons a l => rfl

/-- C7 amended: the mode metric returns "N/A" when the table is empty; on a
non-empty table whose column has no non-missing value it raises a KeyError
(caught by the enclosing try/except block, so no metric is rendered) rather
than returning "N/A"; on a non-empty table whose column has a non-missing
value it returns a most frequent non-missing value of the column. -/
theorem modeMetric_spec (proj : Row → Option String) (t : List Row) :
    (t = [] → modeMetric proj t = Except.ok "N/A") ∧
    (t ≠ [] → t.filterMap proj = [] →
      modeMetric proj t = Except.error "KeyError: 0") ∧
    (t ≠ [] → t.filterMap proj ≠ [] → (modeMetric proj t).isOk = true) ∧
    (∀ v, t ≠ [] → modeMetric proj t = Except.ok v →
      v ∈ t.filterMap proj ∧ ∀ w ∈ t.filterMap proj,
        (t.filterMap proj).count w ≤ (t.filterMap proj).count v) := by
  refine ⟨?_, ?_, ?_, ?_⟩
  · intro h
    subst h
    rfl
  · intro h hcol
    unfold modeMetric
    rw [isEmpty_false_of_ne_nil h, hcol]
    rfl
  · intro h hcol
    unfold modeMetric
    rw [isEmpty_false_of_ne_nil h]
    cases hm : (seriesMode (t.filterMap proj)).head? with
    | some v => rfl
    | none =>
      rw [List.head?_eq_none_iff] at hm
      exact absurd hm (seriesMode_ne_nil hcol)
  · intro v h hok
    unfold modeMetric at hok
    rw [isEmpty_false_of_ne_nil h] at hok
    rw [if_neg (by simp)] at hok
    cases hm : (seriesMode (t.filterMap proj)).head? with
    | none =>
      rw [hm] at hok
      exact absurd hok (by simp)
    | some u =>
      rw [hm] at hok
      simp only [Except.ok.injEq] at hok
      subst hok
      have hcand := seriesMode_mem (head?_mem hm)
      rcases List.mem_filter.mp hcand with ⟨hdedup, hbeq⟩
      have hcnt : (t.filterMap proj).count u = maxCount (t.filterMap proj) :=
        eq_of_beq hbeq
      refine ⟨List.mem_dedup.mp hdedup, ?_⟩
      intro w hw
      rw [hcnt]
      exact count_le_maxCount hw

/-- A row all of whose cells are missing. -/
def allNoneRow : Row :=
  ⟨none, none, none, none, none, none, none, none, none⟩

/-- A row whose only populated cell is the weekday. -/
def mkWeekdayRow (d : String) : Row :=
  ⟨none, some d, none, none, none, none, none, none, none⟩

/-- The three-row scenario table of the spec: weekday column
Monday, Monday, Tuesday. -/
def threeRowTable : List Row :=
  [mkWeekdayRow "Monday", mkWeekdayRow "Monday", mkWeekdayRow "Tuesday"]

/-- C7 counterexample: on a non-empty table whose weekday column is entirely
missing, `top_day` raises a KeyError instead of returning "N/A": the guard
in app.py line 158 checks only that the table is empty, and `mode()` of an
all-missing column is an empty series, so indexing it with `[0]` raises. -/
theorem top_day_all_missing_cex : top_day [allNoneRow] ≠ Except.ok "N/A" := by
  intro h
  rw [show top_day [allNoneRow] = Except.error "KeyError: 0" from rfl] at h
  exact Except.noConfusion h

/-- Witness for the amended mode theorem: the empty table yields "N/A", an
all-missing column raises, and on the three-row scenario table the returned
value Monday is a value of the column. -/
theorem modeMetric_spec_witness :
    modeMetric Row.weekday ([] : List Row) = Except.ok "N/A" ∧
    modeMetric Row.weekday [allNoneRow] = Except.error "KeyError: 0" ∧
    "Monday" ∈ threeRowTable.filterMap Row.weekday :=
  ⟨(modeMetric_spec Row.weekday []).1 rfl,
   (modeMetric_spec Row.weekday [allNoneRow]).2.1 (by decide) rfl,
   ((modeMetric_spec Row.weekday threeRowTable).2.2.2 "Monday" (by decide) rfl).1⟩

/-- C10: when the mode computation returns a value, that value attains the
maximal occurrence count and is the least such value in the code-point
lexicographic order on strings: pandas `mode` returns the tied values
sorted ascending and `[0]` takes the first. -/
theorem mode_tie_break (proj : Row → Option String) (t : List Row) (v : String)
    (ht : t ≠ []) (hok : modeMetric proj t = Except.ok v) :
    v ∈ t.filterMap proj ∧
    (t.filterMap proj).count v = maxCount (t.filterMap proj) ∧
    ∀ w ∈ t.filterMap proj,
      (t.filterMap proj).count w = maxCount (t.filterMap proj) → strLe v w = true := by
  unfold modeMetric at hok
  rw [isEmpty_false_of_ne_nil ht] at hok
  rw [if_neg (by simp)] at hok
  cases hm : (seriesMode (t.filterMap proj)).head? with
  | none =>
    rw [hm] at hok
    exact absurd hok (by simp)
  | some u =>
    rw [hm] at hok
    simp only [Except.ok.injEq] at hok
    subst hok
    have hcand := seriesMode_mem (head?_mem hm)
    rcases List.mem_filter.mp hcand with ⟨hdedup, hbeq⟩
    have hcnt : (t.filterMap proj).count u = maxCount (t.filterMap proj) :=
      eq_of_beq hbeq
    refine ⟨List.mem_dedup.mp hdedup, hcnt, ?_⟩
    intro w hw hwcnt
    have hwf : w ∈ (t.filterMap proj).dedup.filter
        (fun u => (t.filterMap proj).count u == maxCount (t.filterMap proj)) :=
      List.mem_filter.mpr ⟨List.mem_dedup.mpr hw, by simp [hwcnt]⟩
    have hwm : w ∈ seriesMode (t.filterMap proj) :=
      (List.perm_insertionSort _ _).mem_iff.mpr hwf
    exact seriesMode_head_le hm w hwm

/-- A two-row table whose weekdays Tuesday and Monday tie for most
frequent. -/
def tieTable : List Row :=
  [mkWeekdayRow "Tuesday", mkWeekdayRow "Monday"]

/-- Witness for the tie-break theorem: on the tie table the computation
returns Monday, which attains the maximal count. -/
theorem mode_tie_break_witness :
    "Monday" ∈ tieTable.filterMap Row.weekday ∧
    (tieTable.filterMap Row.weekday).count "Monday" =
      maxCount (tieTable.filterMap Row.weekday) :=
  ⟨(mode_tie_break Row.weekday tieTable "Monday" (by decide) rfl).1,
   (mode_tie_break Row.weekday tieTable "Monday" (by decide) rfl).2.1⟩

theorem lookup_map_count (xs : List String) :
    ∀ (l : List String) (d : String),
      (l.map (fun v => (v, xs.count v))).lookup d =
        if d ∈ l then some (xs.count d) else none := by
  intro l
  induction l with
  | nil =>
    intro d
    rfl
  | cons a as ih =>
    intro d
    by_cases h : d = a
    · subst h
      simp [List.lookup]
    · rw [List.map_cons]
      simp only [List.lookup]
      rw [show (d == a) = false from beq_eq_false_iff_ne.mpr h, ih d]
      simp [List.mem_cons, h]

theorem lookup_value_counts (xs : List String) (d : String) :
    (value_counts xs).lookup d =
      if xs.count d = 0 then none else some (xs.count d) := by
  unfold value_counts
  rw [lookup_map_count xs xs.dedup d]
  by_cases h : d ∈ xs
  · rw [if_pos (List.mem_dedup.mpr h),
      if_neg (Nat.pos_iff_ne_zero.mp (List.count_pos_iff.mpr h))]
  · rw [if_neg (fun hc => h (List.mem_dedup.mp hc)),
      if_pos (List.count_eq_zero.mpr h)]

/-- C8 counterexample: on the three-row scenario table the weekday bar data
does not carry zero counts for the absent weekdays: `reindex` without a fill
value leaves them missing (NaN). -/
theorem weekday_counts_zero_cex :
    weekday_counts threeRowTable ≠
      [("Monday", some 2), ("Tuesday", some 1), ("Wednesday", some 0),
       ("Thursday", some 0), ("Friday", some 0), ("Saturday", some 0),
       ("Sunday", some 0)] := by
  decide

/-- C8 amended: the weekday bar data follows the canonical Monday..Sunday
order, carrying the occurrence count of each weekday that occurs and a
missing value (not zero) for each weekday that does not; on the three-row
scenario table the absent weekdays Wednesday..Sunday are missing. -/
theorem weekday_counts_spec :
    (∀ t : List Row,
      weekday_counts t = canonicalWeekdays.map (fun d =>
        (d, if (t.filterMap Row.weekday).count d = 0 then none
            else some ((t.filterMap Row.weekday).count d)))) ∧
    weekday_counts threeRowTable =
      [("Monday", some 2), ("Tuesday", some 1), ("Wednesday", none),
       ("Thursday", none), ("Friday", none), ("Saturday", none),
       ("Sunday", none)] := by
  constructor
  · intro t
    unfold weekday_counts reindex
    apply List.map_congr_left
    intro d _
    rw [lookup_value_counts]
  · decide

/-- C9: the filtered average injury rate is the column sum divided by the
row count on a non-empty table and 0 on the empty table (the guard in
app.py line 173 prevents the division by zero). -/
theorem rate_spec (t : List Row) :
    (t ≠ [] → filtered_avg_injury_rate t =
      ((t.filterMap Row.num_of_injuries).sum : ℚ) / (t.length : ℚ)) ∧
    (t = [] → filtered_avg_injury_rate t = 0) := by
  constructor
  · intro h
    unfold filtered_avg_injury_rate
    rw [if_pos (List.length_pos.mpr h)]
  · intro h
    subst h
    rfl

/-- A row whose only populated cell is the injury count. -/
def injuredRow : Row :=
  ⟨none, none, none, none, none, none, none, none, some 3⟩

/-- Witness for the rate theorem at the empty table and a one-row table. -/
theorem rate_spec_witness :
    filtered_avg_injury_rate ([] : List Row) = 0 ∧
    filtered_avg_injury_rate [injuredRow] =
      (([injuredRow].filterMap Row.num_of_injuries).sum : ℚ) /
        (([injuredRow] : List Row).length : ℚ) :=
  ⟨(rate_spec []).2 rfl, (rate_spec [injuredRow]).1 (by decide)⟩

/-- Witness for the amended monotonicity theorem at a concrete row, table,
selection and update. -/
theorem filtered_df_monotone_witness :
    (⟨none, some "Monday", none, none, none, none, none, none, none⟩ : Row) ∈
      filtered_df
        (addValue (.day "Tuesday") ⟨[], ["Monday"], [], [], [], [], []⟩)
        [⟨none, some "Monday", none, none, none, none, none, none, none⟩] :=
  filtered_df_monotone ⟨[], ["Monday"], [], [], [], [], []⟩ (.day "Tuesday")
    [⟨none, some "Monday", none, none, none, none, none, none, none⟩]
    ⟨none, some "Monday", none, none, none, none, none, none, none⟩
    (by decide)
    (by rw [filtered_df_eq_filter]; decide)

end Ottawa
